import Mathlib

/-!
Verification development for the EventPlanner_NAT repository.

The repository is a small event-planning assistant:
* `src/event_planning_nemo/event_planning_nemo.py` — LLM theme/plan generation
  and a SQLite data-access layer (`DatabaseManager`), plus a standalone
  `EventPlanningWorkflow` class duplicating the generation logic;
* `src/db_setup.py` — schema creation (`participants.email` is `UNIQUE`) and the
  `add_moderator` / `add_participant` write helpers;
* `src/event_planning_nemo/register.py` — re-exports the registered callables.

This file is a shallow embedding of that code.  Python strings are modelled as
`List Char` (`String` at the API boundary), the SQLite tables as Lean lists of
row structures, and the external LLM completion call as an explicit outcome
value.  Whitespace and digit classes are modelled at ASCII granularity, which
covers every string manipulated by the program.
-/

/-- ASCII model of Python's whitespace class (`str.strip`, regex `\s`):
space, tab, newline, carriage return, vertical tab, form feed. -/
def pyIsSpace (c : Char) : Bool :=
  c = ' ' || c = '\t' || c = '\n' || c = '\r' || c = '\x0b' || c = '\x0c'

/-- Python `str.strip()`: drop leading whitespace, then trailing whitespace. -/
def pyStrip (s : List Char) : List Char :=
  (((s.dropWhile pyIsSpace).reverse.dropWhile pyIsSpace)).reverse

/-- Does `pat` occur at the very start of `s`? (list-of-chars prefix test). -/
def startsWithSeq : List Char → List Char → Bool
  | [], _ => true
  | _ :: _, [] => false
  | p :: ps, c :: cs => (p == c) && startsWithSeq ps cs

/-- Does `pat` occur contiguously anywhere inside `s`? -/
def containsSeq (pat : List Char) : List Char → Bool
  | [] => pat.isEmpty
  | c :: rest => startsWithSeq pat (c :: rest) || containsSeq pat rest

/-- Python `s.replace("\n\n", "\n")`: a single left-to-right pass replacing each
non-overlapping occurrence of two newlines by one
(`event_planning_nemo.py:260` and `:480`). -/
def replaceNN : List Char → List Char
  | c1 :: c2 :: rest =>
    if c1 = '\n' ∧ c2 = '\n' then '\n' :: replaceNN rest
    else c1 :: replaceNN (c2 :: rest)
  | s => s

/-- Attempt to match the regex `\*\*\d+\.\s*` at the head of the input
(the theme heading marker of `re.split(r"\*\*\d+\.\s*", raw_response)`,
`event_planning_nemo.py:257` and `:477`).  Returns the remaining input after a
successful match.  Backtracking note: `\d+` is effectively the maximal digit
run, since a shorter digit prefix would have to be followed by `.`, which is
not a digit. -/
def matchMarker : List Char → Option (List Char)
  | c1 :: c2 :: rest =>
    if c1 = '*' ∧ c2 = '*' then
      match rest.dropWhile Char.isDigit with
      | d1 :: rest2 =>
        if d1 = '.' ∧ rest.takeWhile Char.isDigit ≠ [] then
          some (rest2.dropWhile pyIsSpace)
        else none
      | [] => none
    else none
  | _ => none

/-- Fuelled core of `re.split(r"\*\*\d+\.\s*", s)`: scan left to right; at the
first position where the marker matches, emit the accumulated segment and
continue after the match.  The fuel only serves termination; `splitThemes`
supplies `s.length + 1`, which is never exhausted because every step consumes
at least one character. -/
def splitThemesFuel : Nat → List Char → List (List Char)
  | 0, s => [s]
  | _ + 1, [] => [[]]
  | fuel + 1, c :: cs =>
    match matchMarker (c :: cs) with
    | some rest => [] :: splitThemesFuel fuel rest
    | none =>
      match splitThemesFuel fuel cs with
      | seg :: segs => (c :: seg) :: segs
      | [] => [[c]]

/-- `re.split(r"\*\*\d+\.\s*", s)` from the theme-parsing block. -/
def splitThemes (s : List Char) : List (List Char) :=
  splitThemesFuel (s.length + 1) s

/-- The theme-parsing block shared verbatim by the registered
`_generate_themes` (`event_planning_nemo.py:254-260`) and the standalone
`EventPlanningWorkflow.generate_event_themes` (`:474-480`):
strip the content, split on the heading marker, pop an empty leading segment,
then keep each non-empty segment with `"\n\n" → "\n"` applied once and
surrounding whitespace trimmed.  `postPopThemes` is the
`if themes and not themes[0].strip(): themes.pop(0)` step. -/
def postPopThemes : List (List Char) → List (List Char)
  | [] => []
  | t0 :: rest => if pyStrip t0 = [] then rest else t0 :: rest

def parseThemes (content : List Char) : List (List Char) :=
  ((postPopThemes (splitThemes (pyStrip content))).filter (fun t => !t.isEmpty)).map
    (fun t => pyStrip (replaceNN t))

/-- Outcome of the `completion(...)` call together with the shape checks that
follow it (`event_planning_nemo.py:231-252`, duplicated at `:451-472`).  The
constructors partition what the Python code observes:
* `raised msg` — the call itself raised (network/transport error), or the
  response dict had no `"choices"` key (`KeyError`); `msg` is `str(e)`;
* `noneResponse` — `response is None` (`ValueError "LLM returned None response"`);
* `noChoices` — `response` not a dict, or `choices` empty
  (`ValueError "LLM response has no choices"`);
* `noMessage` — first choice has a falsy `message`;
* `noContent` — message has a falsy (missing or empty) `content`;
* `ok content` — a truthy content string was extracted. -/
inductive LLMResult where
  | raised (msg : String)
  | noneResponse
  | noChoices
  | noMessage
  | noContent
  | ok (content : String)
deriving DecidableEq

/-- The content extraction of `event_planning_nemo.py:238-252`: either the
content string, or the text of the exception that reaches the `except` clause. -/
def extractContent : LLMResult → Except String String
  | .raised msg => .error msg
  | .noneResponse => .error "LLM returned None response"
  | .noChoices => .error "LLM response has no choices"
  | .noMessage => .error "LLM response has no message"
  | .noContent => .error "LLM response has no content"
  | .ok content => .ok content

/-- The five diagnostic fallback strings of the registered theme generator
(`event_planning_nemo.py:270-276`), parameterized by the exception text. -/
def fallbackThemes (e : String) : List String :=
  [ "**Event Theme 1**: Unable to generate themes. Please check your LLM configuration.",
    "**Event Theme 2**: Error: " ++ e,
    "**Event Theme 3**: Verify NIM_BASE_URL and NVIDIA_API_KEY are set correctly.",
    "**Event Theme 4**: Ensure your NVIDIA NIM endpoint is running.",
    "**Event Theme 5**: Check network connectivity to the NIM server." ]

/-- The registered async `_generate_themes` (`event_planning_nemo.py:222-276`)
as a function of the completion outcome.  A parse producing zero segments
raises `ValueError("Failed to extract themes from LLM response")` inside the
`try`, so it lands in the same fallback as an external failure.  (The Python
function wraps the list in a `ThemesOutput`; the wrapper is the identity on
the themes list.) -/
def generateThemesRegistered (r : LLMResult) : List String :=
  match extractContent r with
  | .error e => fallbackThemes e
  | .ok content =>
    let cleaned := parseThemes content.toList
    if cleaned.isEmpty then
      fallbackThemes "Failed to extract themes from LLM response"
    else cleaned.map String.mk

/-- The synchronous standalone `EventPlanningWorkflow.generate_event_themes`
(`event_planning_nemo.py:442-486`) as a function of the completion outcome.
Unlike the registered function, its failure returns are one-element lists. -/
def generateThemesStandalone (r : LLMResult) : List String :=
  match extractContent r with
  | .error e => ["Error generating themes: " ++ e]
  | .ok content =>
    let cleaned := parseThemes content.toList
    if cleaned.isEmpty then ["Error: Unable to generate themes"]
    else cleaned.map String.mk

/-- Classifies an input of the theme generators as a failure, returning the
exception text that reaches the `except` clause: either the external call
failed (in one of the shapes of `LLMResult`), or the content parsed to zero
segments. -/
def genFailure (r : LLMResult) : Option String :=
  match extractContent r with
  | .error e => some e
  | .ok content =>
    if (parseThemes content.toList).isEmpty then
      some "Failed to extract themes from LLM response"
    else none

/-- A row of the `moderators` table (`db_setup.py:36-47`): `name` is
`NOT NULL`; the other payload columns are nullable. -/
structure ModeratorRow where
  id : Nat
  name : String
  city : Option String
  description : Option String
  email : Option String
  phone : Option String
  expertise : Option String
  createdAt : String
deriving DecidableEq, Repr

/-- The six columns selected by `fetch_moderators_from_db`
(`event_planning_nemo.py:64-75`). -/
structure ModeratorFields where
  name : String
  city : Option String
  description : Option String
  email : Option String
  phone : Option String
  expertise : Option String
deriving DecidableEq, Repr

def modFields (r : ModeratorRow) : ModeratorFields :=
  ⟨r.name, r.city, r.description, r.email, r.phone, r.expertise⟩

/-- A row of the `participants` table (`db_setup.py:51-61`): `name` and
`email` are `NOT NULL`, and `email` is `UNIQUE`. -/
structure ParticipantRow where
  id : Nat
  name : String
  email : String
  company : Option String
  role : Option String
  phone : Option String
  createdAt : String
deriving DecidableEq, Repr

/-- The five columns selected by `fetch_participants_from_db`
(`event_planning_nemo.py:100-110`). -/
structure ParticipantFields where
  name : String
  email : String
  company : Option String
  role : Option String
  phone : Option String
deriving DecidableEq, Repr

def partFields (r : ParticipantRow) : ParticipantFields :=
  ⟨r.name, r.email, r.company, r.role, r.phone⟩

/-- Python truthiness of an `Optional[List[str]]` parameter:
`None` and `[]` are both falsy (`if moderator_names:` / `if participant_names:`). -/
def pyTruthyStrList : Option (List String) → Bool
  | none => false
  | some l => !l.isEmpty

/-- Python truthiness of an `Optional[int]` parameter: `None` and `0` are
falsy (`if limit:`, `event_planning_nemo.py:113`). -/
def pyTruthyInt : Option Int → Bool
  | none => false
  | some n => n != 0

/-- SQLite `LIMIT n`: a negative limit means "no limit". -/
def sqliteLimit {α : Type} (n : Int) (rows : List α) : List α :=
  if n < 0 then rows else rows.take n.toNat

/-- `DatabaseManager.fetch_moderators_from_db` (`event_planning_nemo.py:52-85`):
if the names argument is truthy, `WHERE name IN (...)` over the stored rows in
storage order; otherwise all rows.  (The `sqlite3.Error` catch that returns
`[]` is modelled separately, in the connection-discipline section.) -/
def fetch_moderators_from_db (db : List ModeratorRow)
    (moderator_names : Option (List String)) : List ModeratorFields :=
  if pyTruthyStrList moderator_names then
    (db.filter (fun r => (moderator_names.getD []).contains r.name)).map modFields
  else
    db.map modFields

/-- `DatabaseManager.fetch_participants_from_db` (`event_planning_nemo.py:87-126`):
a truthy names argument selects `WHERE name IN (...)` and never consults
`limit`; otherwise all rows, with `LIMIT ?` appended only when `limit` is
truthy. -/
def fetch_participants_from_db (db : List ParticipantRow)
    (participant_names : Option (List String)) (limit : Option Int) :
    List ParticipantFields :=
  if pyTruthyStrList participant_names then
    (db.filter (fun r => (participant_names.getD []).contains r.name)).map partFields
  else if pyTruthyInt limit then
    sqliteLimit (limit.getD 0) (db.map partFields)
  else
    db.map partFields

/-- The `participants` table with its `AUTOINCREMENT` counter. -/
structure ParticipantsTable where
  rows : List ParticipantRow
  nextId : Nat
deriving DecidableEq, Repr

/-- `add_participant` (`db_setup.py:222-245`): the `INSERT` raises
`sqlite3.IntegrityError` when the `UNIQUE` constraint on `email` is violated;
the handler reports it and nothing is committed, so the table is unchanged.
The boolean records whether the insert succeeded (`✓ Added` vs `✗ ... already
exists`). -/
def add_participant (tbl : ParticipantsTable) (name email : String)
    (company role phone : Option String) (now : String) :
    ParticipantsTable × Bool :=
  if tbl.rows.any (fun r => r.email == email) then
    (tbl, false)
  else
    ({ rows := tbl.rows ++ [⟨tbl.nextId, name, email, company, role, phone, now⟩],
       nextId := tbl.nextId + 1 }, true)

/-- A moderator summary as consumed by the plan-refinement prompt
(`moderator['name']`, `moderator['city']`, `moderator.get('description', 'events')`). -/
structure Moderator where
  name : String
  city : String
  description : Option String
deriving DecidableEq, Repr

/-- One item of the `moderator_descriptions` join
(`event_planning_nemo.py:299-302` and `:496-499`). -/
def moderatorDescription (m : Moderator) : String :=
  m.name ++ " from " ++ m.city ++ " with expertise in " ++ m.description.getD "events"

/-- `moderators_str` (`event_planning_nemo.py:303` and `:500`): the joined
sentence when the list is truthy, and the fixed sentence otherwise. -/
def moderatorsStr (mods : List Moderator) : String :=
  if mods.isEmpty then "No specific moderators provided."
  else
    "The moderators for this event are: "
      ++ String.intercalate " " (mods.map moderatorDescription) ++ "."

/-- The input schema `EventPlanInput` (`event_planning_nemo.py:145-154`). -/
structure EventPlanInput where
  selected_theme : String
  start_date : String
  end_date : String
  start_time : String
  end_time : String
  location : String
  event_type : String
  moderators : List Moderator
deriving DecidableEq, Repr

/-- The single-day prompt of `_refine_plan` (`event_planning_nemo.py:307-314`). -/
def refineSingleDayPrompt (i : EventPlanInput) : String :=
  "Using the theme: '" ++ i.selected_theme
    ++ "', provide a detailed descriptive agenda with timings (from "
    ++ i.start_time ++ " to " ++ i.end_time
    ++ "), location, target audience, and purpose for the event on "
    ++ i.start_date ++ ". It is a " ++ i.event_type ++ " event at " ++ i.location
    ++ ". " ++ moderatorsStr i.moderators
    ++ " Additionally, draft a professional and concise email invitation content that includes the event title, date, time, location, and a brief overview to invite participants."

/-- The balancing instruction that only the multi-day template of
`_refine_plan` contains (`event_planning_nemo.py:323`). -/
def balanceInstruction : String :=
  "showing a balanced distribution of sessions, breaks, and networking events for both days. "

/-- The multi-day prompt of `_refine_plan` (`event_planning_nemo.py:316-326`).
The outer grouping isolates the literal balancing instruction; string append
is associative, so the produced prompt is the source's. -/
def refineMultiDayPrompt (i : EventPlanInput) : String :=
  ("Using the theme: '" ++ i.selected_theme
    ++ "', provide a detailed descriptive agenda with timings (from "
    ++ i.start_time ++ " to " ++ i.end_time
    ++ "), location, target audience, and purpose for the event from "
    ++ i.start_date ++ " to " ++ i.end_date
    ++ ". It is a " ++ i.event_type ++ " event at " ++ i.location
    ++ ". " ++ moderatorsStr i.moderators
    ++ " Please make sure to split the agenda across both days ("
    ++ i.start_date ++ " and " ++ i.end_date ++ "), ")
  ++ (balanceInstruction
    ++ "Additionally, draft a professional and concise email invitation content that includes the event title, date range, daily timings, location, and a brief overview to invite participants.")

/-- The prompt selection of `_refine_plan` (`event_planning_nemo.py:306`):
the single-day template iff `start_date == end_date`. -/
def refinePlanPrompt (i : EventPlanInput) : String :=
  if i.start_date = i.end_date then refineSingleDayPrompt i
  else refineMultiDayPrompt i

/-- The `event_details` mapping consumed by
`EventPlanningWorkflow.start_event_planning`. -/
structure EventDetails where
  start_date : String
  end_date : String
  start_time : String
  end_time : String
  location : String
  event_type : String
deriving DecidableEq, Repr

/-- The single-day prompt of `start_event_planning`
(`event_planning_nemo.py:503-509`). -/
def startPlanningSingleDayPrompt (selected_theme : String) (d : EventDetails)
    (mods : List Moderator) : String :=
  "Using the theme: '" ++ selected_theme
    ++ "', provide a detailed descriptive agenda with timings (from "
    ++ d.start_time ++ " to " ++ d.end_time
    ++ "), location, target audience, and purpose for the event on "
    ++ d.start_date ++ ". It is a " ++ d.event_type ++ " event at " ++ d.location
    ++ ". " ++ moderatorsStr mods
    ++ " Additionally, draft a professional and concise email invitation content."

/-- The closing instruction that only the multi-day template of
`start_event_planning` contains (`event_planning_nemo.py:517`). -/
def splitDaysInstruction : String :=
  "Split the agenda across both days. Additionally, draft a professional email invitation."

/-- The multi-day prompt of `start_event_planning`
(`event_planning_nemo.py:511-518`). -/
def startPlanningMultiDayPrompt (selected_theme : String) (d : EventDetails)
    (mods : List Moderator) : String :=
  ("Using the theme: '" ++ selected_theme
    ++ "', provide a detailed descriptive agenda with timings (from "
    ++ d.start_time ++ " to " ++ d.end_time
    ++ "), location, target audience, and purpose for the event from "
    ++ d.start_date ++ " to " ++ d.end_date
    ++ ". It is a " ++ d.event_type ++ " event at " ++ d.location
    ++ ". " ++ moderatorsStr mods ++ " ")
  ++ splitDaysInstruction

/-- The prompt selection of `start_event_planning`
(`event_planning_nemo.py:502`). -/
def startPlanningPrompt (selected_theme : String) (d : EventDetails)
    (mods : List Moderator) : String :=
  if d.start_date = d.end_date then startPlanningSingleDayPrompt selected_theme d mods
  else startPlanningMultiDayPrompt selected_theme d mods

/-- Connection-counting computations: a value of `ConnM α` takes the number of
currently open store connections and returns the call's outcome (normal value
or propagated exception text) together with the number of connections still
open.  This models Python's `sqlite3.connect`/`conn.close()` discipline,
`try/except/finally` included. -/
def ConnM (α : Type) : Type := Nat → Except String α × Nat

def pureC {α : Type} (a : α) : ConnM α := fun n => (.ok a, n)

def bindC {α β : Type} (m : ConnM α) (f : α → ConnM β) : ConnM β := fun n =>
  match m n with
  | (.ok a, n') => f a n'
  | (.error e, n') => (.error e, n')

/-- `sqlite3.connect(...)`: one more connection is open. -/
def connectC : ConnM Unit := fun n => (.ok (), n + 1)

/-- `conn.close()`: one fewer connection is open. -/
def closeC : ConnM Unit := fun n => (.ok (), n - 1)

/-- A raised exception propagating out of the current statement. -/
def raiseC {α : Type} (msg : String) : ConnM α := fun n => (.error msg, n)

/-- Lift the outcome of an opaque database step (`cursor.execute`/`conn.commit`):
either it returns normally or it raises. -/
def liftResC (r : Except String Unit) : ConnM Unit := fun n => (r, n)

/-- Python `try ... finally fin`: `fin` runs on both the normal and the
exceptional exit of the body, and the body's outcome is then propagated. -/
def tryFinallyC {α : Type} (body : ConnM α) (fin : ConnM Unit) : ConnM α := fun n =>
  let (r, n') := body n
  let (_, n'') := fin n'
  (r, n'')

/-- Python `try ... except ... : handler e`: the handler consumes a raised
exception; normal completion passes through. -/
def tryCatchC {α : Type} (body : ConnM α) (handler : String → ConnM α) : ConnM α :=
  fun n =>
  match body n with
  | (.ok a, n') => (.ok a, n')
  | (.error e, n') => handler e n'

/-- Connection discipline of `DatabaseManager.fetch_moderators_from_db`
(`event_planning_nemo.py:57-85`): connect, then
`try: execute... except sqlite3.Error: return [] finally: conn.close()`.
`execResult` is what the underlying store does at the execute step. -/
def fetch_moderators_conn (execResult : Except String Unit) : ConnM Unit :=
  bindC connectC fun _ =>
    tryFinallyC
      (tryCatchC (liftResC execResult) (fun _ => pureC ()))
      closeC

/-- Connection discipline of `DatabaseManager.fetch_participants_from_db`
(`event_planning_nemo.py:93-126`): same `try/except sqlite3.Error/finally`
shape as the moderators read. -/
def fetch_participants_conn (execResult : Except String Unit) : ConnM Unit :=
  bindC connectC fun _ =>
    tryFinallyC
      (tryCatchC (liftResC execResult) (fun _ => pureC ()))
      closeC

/-- Connection discipline of `add_participant` (`db_setup.py:231-245`):
connect, then `try: execute; commit except sqlite3.IntegrityError: print
finally: conn.close()`.  Only an integrity error is swallowed; any other
exception is re-raised after the `finally` closes the connection. -/
def add_participant_conn (execResult : Except String Unit) (isIntegrityError : Bool) :
    ConnM Unit :=
  bindC connectC fun _ =>
    tryFinallyC
      (tryCatchC (liftResC execResult)
        (fun e => if isIntegrityError then pureC () else raiseC e))
      closeC

/-- Connection discipline of `add_moderator` (`db_setup.py:199-219`):
connect, execute, commit, close — with no `try`/`finally` whatsoever, so
`conn.close()` is only reached when the insert and commit succeed. -/
def add_moderator_conn (execResult : Except String Unit) : ConnM Unit :=
  bindC connectC fun _ =>
    bindC (liftResC execResult) fun _ =>
      closeC

/-- The module-level names bound by `event_planning_nemo.py` on module load
(its imports, classes, functions and module globals; the
`if __name__ == "__main__"` block does not run on import). -/
def eventPlanningNemoTopLevel : List String :=
  [ "re", "asyncio", "sqlite3", "os", "Dict", "List", "Any", "Optional", "Path",
    "BaseModel", "Field", "load_dotenv", "completion", "FunctionBaseConfig",
    "register_function", "Builder", "FunctionInfo", "Settings", "settings",
    "DatabaseManager", "db_manager", "EventIdeaInput", "ThemesOutput",
    "EventPlanInput", "EventPlanOutput", "ModeratorsInput", "ModeratorsOutput",
    "ParticipantsInput", "ParticipantsOutput", "HumanPromptTextInput",
    "GenerateEventThemesConfig", "RefineEventPlanConfig", "FetchModeratorsConfig",
    "FetchParticipantsConfig", "generate_event_themes", "refine_event_plan",
    "fetch_moderators", "fetch_participants", "EventPlanningWorkflow" ]

/-- The names requested by `register.py`'s
`from .event_planning_nemo import (...)` (`register.py:7-13`). -/
def registerImportList : List String :=
  [ "generate_event_themes", "refine_event_plan", "fetch_moderators",
    "fetch_participants", "ask_user" ]

/-- Python `from module import a, b, ...`: the import of the requesting module
succeeds only when every requested name is bound in the imported module;
otherwise the module body raises `ImportError` and the requesting module
fails to load, exposing none of its names. -/
def pyFromImport (exports requested : List String) : Except String (List String) :=
  match requested.find? (fun nm => !exports.contains nm) with
  | some missing => .error ("ImportError: cannot import name " ++ missing)
  | none => .ok requested

/-- The outcome of importing `register.py`. -/
def registerModuleLoad : Except String (List String) :=
  pyFromImport eventPlanningNemoTopLevel registerImportList

/-- Three consecutive newlines: the shape of a run of more than one blank line
inside stripped text. -/
def nlRun3 : List Char := ['\n', '\n', '\n']

/-- Four consecutive newlines. -/
def nlRun4 : List Char := ['\n', '\n', '\n', '\n']

/-- Sample participant rows (from the seed data of `db_setup.py:126-127`). -/
def pRowAlice : ParticipantRow :=
  ⟨1, "Alice Smith", "alice.smith@techcorp.com", some "TechCorp",
   some "Software Engineer", some "+1-555-0101", "t0"⟩

def pRowBob : ParticipantRow :=
  ⟨2, "Bob Johnson", "bob.johnson@innovate.com", some "Innovate Inc",
   some "Product Manager", some "+1-555-0102", "t0"⟩

def pdb0 : List ParticipantRow := [pRowAlice, pRowBob]

def ptbl0 : ParticipantsTable := ⟨pdb0, 3⟩

/-- Sample plan-refinement inputs: equal and differing date pairs. -/
def iEq0 : EventPlanInput :=
  ⟨"Tech Summit", "24-01-2025", "24-01-2025", "11:00 AM", "5:00 PM",
   "HYDERABAD", "Technical Conference", []⟩

def iNe0 : EventPlanInput :=
  ⟨"Tech Summit", "24-01-2025", "25-01-2025", "11:00 AM", "5:00 PM",
   "HYDERABAD", "Technical Conference", []⟩

def dEq0 : EventDetails :=
  ⟨"24-01-2025", "24-01-2025", "11:00 AM", "5:00 PM", "HYDERABAD",
   "Technical Conference"⟩

def dNe0 : EventDetails :=
  ⟨"24-01-2025", "25-01-2025", "11:00 AM", "5:00 PM", "HYDERABAD",
   "Technical Conference"⟩

theorem startsWithSeq_self_append (pat t : List Char) :
    startsWithSeq pat (pat ++ t) = true := by
  induction pat with
  | nil => rfl
  | cons p ps ih => simp [startsWithSeq, ih]

theorem startsWithSeq_refl (pat : List Char) : startsWithSeq pat pat = true := by
  have := startsWithSeq_self_append pat []
  simpa using this

theorem startsWithSeq_append_right (pat : List Char) :
    ∀ (s t : List Char), startsWithSeq pat s = true →
      startsWithSeq pat (s ++ t) = true := by
  induction pat with
  | nil => intro s t _; rfl
  | cons p ps ih =>
    intro s t h
    match s with
    | [] => simp [startsWithSeq] at h
    | c :: cs =>
      simp only [startsWithSeq, Bool.and_eq_true] at h
      simpa [startsWithSeq, h.1] using ih cs t h.2

theorem containsSeq_nil_pat (s : List Char) : containsSeq [] s = true := by
  cases s with
  | nil => rfl
  | cons c cs => simp [containsSeq, startsWithSeq]

theorem containsSeq_of_startsWith (pat s : List Char)
    (h : startsWithSeq pat s = true) : containsSeq pat s = true := by
  match s with
  | [] =>
    match pat with
    | [] => rfl
    | p :: ps => simp [startsWithSeq] at h
  | c :: cs => simp [containsSeq, h]

theorem containsSeq_self (pat : List Char) : containsSeq pat pat = true := by
  cases pat with
  | nil => rfl
  | cons p ps => exact containsSeq_of_startsWith _ _ (startsWithSeq_refl _)

theorem containsSeq_prefix_append (pat y : List Char) :
    containsSeq pat (pat ++ y) = true :=
  containsSeq_of_startsWith _ _ (startsWithSeq_self_append pat y)

theorem containsSeq_append_r (x t pat : List Char)
    (h : containsSeq pat t = true) : containsSeq pat (x ++ t) = true := by
  induction x with
  | nil => simpa using h
  | cons c cs ih => simp [containsSeq, ih]

theorem containsSeq_append_l (t y pat : List Char)
    (h : containsSeq pat t = true) : containsSeq pat (t ++ y) = true := by
  induction t with
  | nil =>
    have hp : pat = [] := by
      cases pat with
      | nil => rfl
      | cons p ps => simp [containsSeq, List.isEmpty] at h
    subst hp
    exact containsSeq_nil_pat y
  | cons c cs ih =>
    simp only [containsSeq, Bool.or_eq_true] at h
    rcases h with h | h
    · exact containsSeq_of_startsWith _ _
        (startsWithSeq_append_right pat (c :: cs) y h)
    · simpa [containsSeq] using Or.inr (ih h)

theorem containsSeq_middle_false (pat s x y : List Char)
    (h : containsSeq pat (x ++ s ++ y) = false) : containsSeq pat s = false := by
  cases hc : containsSeq pat s with
  | false => rfl
  | true =>
    exfalso
    have h1 : containsSeq pat (s ++ y) = true := containsSeq_append_l s y pat hc
    have h2 : containsSeq pat (x ++ (s ++ y)) = true := containsSeq_append_r x _ pat h1
    rw [List.append_assoc] at h
    rw [h] at h2
    exact Bool.false_ne_true h2

theorem containsSeq_str_middle (a pat b : String) :
    containsSeq pat.toList (a ++ (pat ++ b)).toList = true := by
  have hd : (a ++ (pat ++ b)).toList = a.toList ++ (pat.toList ++ b.toList) := by
    simp [String.toList, String.data_append]
  rw [hd]
  exact containsSeq_append_r _ _ _ (containsSeq_prefix_append _ _)

theorem containsSeq_str_suffix (a pat : String) :
    containsSeq pat.toList (a ++ pat).toList = true := by
  have hd : (a ++ pat).toList = a.toList ++ pat.toList := by
    simp [String.toList, String.data_append]
  rw [hd]
  exact containsSeq_append_r _ _ _ (containsSeq_self _)

/-- C2: when `fetch_participants_from_db` receives a non-empty names list, the
limit argument is ignored: the result is exactly the stored rows whose name is
in the list, and it coincides with the result of the same call without a
limit. -/
theorem c2_names_precedence (db : List ParticipantRow) (names : List String)
    (limit : Option Int) (h : names ≠ []) :
    fetch_participants_from_db db (some names) limit
      = (db.filter (fun r => names.contains r.name)).map partFields
    ∧ fetch_participants_from_db db (some names) limit
      = fetch_participants_from_db db (some names) none := by
  have ht : pyTruthyStrList (some names) = true := by
    simp [pyTruthyStrList, h]
  constructor <;> simp [fetch_participants_from_db, ht]

theorem c2_names_precedence_witness :
    fetch_participants_from_db pdb0 (some ["Alice Smith"]) (some 1)
      = (pdb0.filter (fun r => ["Alice Smith"].contains r.name)).map partFields
    ∧ fetch_participants_from_db pdb0 (some ["Alice Smith"]) (some 1)
      = fetch_participants_from_db pdb0 (some ["Alice Smith"]) none :=
  c2_names_precedence pdb0 ["Alice Smith"] (some 1) (by decide)

/-- C3: inserting a participant whose email already occurs in the table fails
as a reported (non-raising) per-call failure, leaves the table unchanged, and
the pre-existing row stays queryable by name. -/
theorem c3_duplicate_email_insert (tbl : ParticipantsTable) (r : ParticipantRow)
    (hmem : r ∈ tbl.rows) (name : String) (company role phone : Option String)
    (now : String) :
    add_participant tbl name r.email company role phone now = (tbl, false)
    ∧ partFields r ∈ fetch_participants_from_db tbl.rows (some [r.name]) none := by
  have hdup : tbl.rows.any (fun row => row.email == r.email) = true := by
    rw [List.any_eq_true]
    exact ⟨r, hmem, by simp⟩
  have ht : pyTruthyStrList (some [r.name]) = true := by simp [pyTruthyStrList]
  constructor
  · simp [add_participant, hdup]
  · simp only [fetch_participants_from_db, ht, if_pos]
    exact List.mem_map.mpr ⟨r, List.mem_filter.mpr ⟨hmem, by simp⟩, rfl⟩

theorem c3_duplicate_email_insert_witness :
    add_participant ptbl0 "Alice Again" pRowAlice.email none none none "t1"
      = (ptbl0, false)
    ∧ partFields pRowAlice
        ∈ fetch_participants_from_db ptbl0.rows (some [pRowAlice.name]) none :=
  c3_duplicate_email_insert ptbl0 pRowAlice (by decide) "Alice Again"
    none none none "t1"

/-- C4: on the completion body `"**1. Title A**\nDesc A\n**2. Title B**\nDesc B"`
theme parsing yields exactly `["Title A**\nDesc A", "Title B**\nDesc B"]` — the
split removes only the leading `**<n>. ` markers (the bold-close `**` stays
attached to the following text), the empty leading segment is dropped, and the
segments are whitespace-trimmed.  This holds through both entry points. -/
theorem c4_theme_parse_literal :
    parseThemes ("**1. Title A**\nDesc A\n**2. Title B**\nDesc B".toList)
      = ["Title A**\nDesc A".toList, "Title B**\nDesc B".toList]
    ∧ generateThemesRegistered (.ok "**1. Title A**\nDesc A\n**2. Title B**\nDesc B")
      = ["Title A**\nDesc A", "Title B**\nDesc B"]
    ∧ generateThemesStandalone (.ok "**1. Title A**\nDesc A\n**2. Title B**\nDesc B")
      = ["Title A**\nDesc A", "Title B**\nDesc B"] := by
  refine ⟨by decide, by decide, by decide⟩

/-- C5: `fetch_moderators_from_db` treats an empty names list exactly like an
absent one — both return the full unfiltered table. -/
theorem c5_moderators_empty_names (db : List ModeratorRow) :
    fetch_moderators_from_db db (some []) = fetch_moderators_from_db db none
    ∧ fetch_moderators_from_db db none = db.map modFields
    ∧ fetch_moderators_from_db db (some []) = db.map modFields := by
  refine ⟨?_, ?_, ?_⟩ <;> simp [fetch_moderators_from_db, pyTruthyStrList]

/-- C9: a falsy limit (`None` or `0`) makes `fetch_participants_from_db` skip
the `LIMIT` clause entirely, returning all rows — `limit=0` behaves as "no
limit", not "zero rows". -/
theorem c9_limit_falsy (db : List ParticipantRow) (limit : Option Int)
    (h : pyTruthyInt limit = false) :
    fetch_participants_from_db db none limit = db.map partFields := by
  simp [fetch_participants_from_db, pyTruthyStrList, h]

theorem c9_limit_falsy_witness :
    fetch_participants_from_db pdb0 none (some 0) = pdb0.map partFields :=
  c9_limit_falsy pdb0 (some 0) (by decide)

/-- C10: loading `register.py` fails, because it requests `ask_user` from the
implementation module, which binds no such name; consequently none of the four
documented callables are exposed through this module. -/
theorem c10_register_import_fails :
    registerModuleLoad = .error "ImportError: cannot import name ask_user"
    ∧ registerImportList.contains "ask_user" = true
    ∧ eventPlanningNemoTopLevel.contains "ask_user" = false
    ∧ registerImportList.contains "generate_event_themes" = true
    ∧ registerImportList.contains "refine_event_plan" = true
    ∧ registerImportList.contains "fetch_moderators" = true
    ∧ registerImportList.contains "fetch_participants" = true := by
  refine ⟨by rfl, by decide, by decide, by decide, by decide, by decide, by decide⟩

/-- C8 counterexample: the claim that every data-access operation releases its
connection on every exit path fails for `add_moderator` — when the insert (or
commit) raises, the call exits with the connection still open, because
`db_setup.add_moderator` has no `try`/`finally`. -/
theorem c8_connection_release_cex :
    ¬ (∀ (e1 e2 e3 : Except String Unit) (b : Bool),
        (fetch_moderators_conn e1 0).2 = 0
        ∧ (fetch_participants_conn e2 0).2 = 0
        ∧ (add_participant_conn e3 b 0).2 = 0
        ∧ (add_moderator_conn e3 0).2 = 0) := by
  intro h
  have := (h (.ok ()) (.ok ()) (.error "database is locked") true).2.2.2
  exact absurd this (by decide)

/-- C8 amended: the two reads and `add_participant` close the connection on
every exit path (success, caught error, uncaught error), but `add_moderator`
closes it only on the success path — a failing insert leaves the connection it
acquired open. -/
theorem c8_connection_release_amended (e1 e2 e3 : Except String Unit) (b : Bool)
    (n : Nat) :
    (fetch_moderators_conn e1 n).2 = n
    ∧ (fetch_participants_conn e2 n).2 = n
    ∧ (add_participant_conn e3 b n).2 = n
    ∧ (add_moderator_conn (.ok ()) n).2 = n
    ∧ (∀ msg, (add_moderator_conn (.error msg) n).2 = n + 1) := by
  cases e1 <;> cases e2 <;> cases e3 <;> cases b <;>
    simp [fetch_moderators_conn, fetch_participants_conn, add_participant_conn,
      add_moderator_conn, bindC, connectC, closeC, liftResC, pureC, raiseC,
      tryFinallyC, tryCatchC]

/-- C1 counterexample: the claim that on every external-call failure *both*
theme generators return the five diagnostic fallback strings fails for the
synchronous standalone entry point, which returns a one-element error list. -/
theorem c1_fallback_cex :
    ¬ (∀ (r : LLMResult) (e : String), genFailure r = some e →
        generateThemesRegistered r = fallbackThemes e
        ∧ (generateThemesStandalone r).length = 5) := by
  intro h
  have := (h (.raised "boom") "boom" (by decide)).2
  exact absurd this (by decide)

/-- C1 amended: on every failure of the external completion call (network
error, malformed response, empty content, or zero parsed segments) the
*registered* function returns exactly the five diagnostic fallback strings and
raises nothing, while the synchronous standalone entry point — contrary to the
spec's claim that it duplicates the same logic — returns a one-element error
list. -/
theorem c1_fallback_amended (r : LLMResult) (e : String)
    (h : genFailure r = some e) :
    generateThemesRegistered r = fallbackThemes e
    ∧ (fallbackThemes e).length = 5
    ∧ (generateThemesStandalone r).length = 1 := by
  cases r with
  | ok content =>
    simp only [genFailure, extractContent] at h
    by_cases hp : (parseThemes content.toList).isEmpty
    · rw [if_pos hp] at h
      cases h
      have hp' : parseThemes content.data = [] := by
        simpa [String.toList, List.isEmpty_iff] using hp
      refine ⟨?_, rfl, ?_⟩
      · simp [generateThemesRegistered, extractContent, String.toList, hp']
      · simp [generateThemesStandalone, extractContent, String.toList, hp']
    · rw [if_neg hp] at h
      cases h
  | raised msg =>
    simp only [genFailure, extractContent, Option.some.injEq] at h
    subst h
    exact ⟨rfl, rfl, rfl⟩
  | noneResponse =>
    simp only [genFailure, extractContent, Option.some.injEq] at h
    subst h
    exact ⟨rfl, rfl, rfl⟩
  | noChoices =>
    simp only [genFailure, extractContent, Option.some.injEq] at h
    subst h
    exact ⟨rfl, rfl, rfl⟩
  | noMessage =>
    simp only [genFailure, extractContent, Option.some.injEq] at h
    subst h
    exact ⟨rfl, rfl, rfl⟩
  | noContent =>
    simp only [genFailure, extractContent, Option.some.injEq] at h
    subst h
    exact ⟨rfl, rfl, rfl⟩

theorem c1_fallback_amended_witness :
    generateThemesRegistered (.raised "boom") = fallbackThemes "boom"
    ∧ (fallbackThemes "boom").length = 5
    ∧ (generateThemesStandalone (.raised "boom")).length = 1 :=
  c1_fallback_amended (.raised "boom") "boom" (by decide)

/-- C6: in both plan builders the prompt template is selected solely by date
equality — equal start/end dates select the single-day template, differing
dates select the multi-day template, and the multi-day prompt carries the
balancing instruction (`_refine_plan`) resp. the split-across-days instruction
(`start_event_planning`). -/
theorem c6_template_selection (i : EventPlanInput) (theme : String)
    (d : EventDetails) (mods : List Moderator) :
    (i.start_date = i.end_date → refinePlanPrompt i = refineSingleDayPrompt i)
    ∧ (i.start_date ≠ i.end_date →
        refinePlanPrompt i = refineMultiDayPrompt i
        ∧ containsSeq balanceInstruction.toList (refinePlanPrompt i).toList = true)
    ∧ (d.start_date = d.end_date →
        startPlanningPrompt theme d mods = startPlanningSingleDayPrompt theme d mods)
    ∧ (d.start_date ≠ d.end_date →
        startPlanningPrompt theme d mods = startPlanningMultiDayPrompt theme d mods
        ∧ containsSeq splitDaysInstruction.toList
            (startPlanningPrompt theme d mods).toList = true) := by
  refine ⟨fun h => by simp [refinePlanPrompt, h], fun h => ?_,
    fun h => by simp [startPlanningPrompt, h], fun h => ?_⟩
  · have he : refinePlanPrompt i = refineMultiDayPrompt i := by
      simp [refinePlanPrompt, h]
    refine ⟨he, ?_⟩
    rw [he]
    unfold refineMultiDayPrompt
    exact containsSeq_str_middle _ _ _
  · have he : startPlanningPrompt theme d mods
        = startPlanningMultiDayPrompt theme d mods := by
      simp [startPlanningPrompt, h]
    refine ⟨he, ?_⟩
    rw [he]
    unfold startPlanningMultiDayPrompt
    exact containsSeq_str_suffix _ _

theorem c6_template_selection_witness :
    refinePlanPrompt iEq0 = refineSingleDayPrompt iEq0
    ∧ refinePlanPrompt iNe0 = refineMultiDayPrompt iNe0
    ∧ containsSeq balanceInstruction.toList (refinePlanPrompt iNe0).toList = true
    ∧ startPlanningPrompt "Tech Summit" dEq0 []
        = startPlanningSingleDayPrompt "Tech Summit" dEq0 []
    ∧ startPlanningPrompt "Tech Summit" dNe0 []
        = startPlanningMultiDayPrompt "Tech Summit" dNe0 []
    ∧ containsSeq splitDaysInstruction.toList
        (startPlanningPrompt "Tech Summit" dNe0 []).toList = true := by
  obtain ⟨h1, -, h3, -⟩ := c6_template_selection iEq0 "Tech Summit" dEq0 []
  obtain ⟨-, h2, -, h4⟩ := c6_template_selection iNe0 "Tech Summit" dNe0 []
  obtain ⟨h2a, h2b⟩ := h2 (by decide)
  obtain ⟨h4a, h4b⟩ := h4 (by decide)
  exact ⟨h1 rfl, h2a, h2b, h3 rfl, h4a, h4b⟩

theorem replaceNN_nil : replaceNN [] = [] := rfl

theorem replaceNN_single (c : Char) : replaceNN [c] = [c] := rfl

theorem replaceNN_cons2 (c1 c2 : Char) (rest : List Char) :
    replaceNN (c1 :: c2 :: rest) =
      if c1 = '\n' ∧ c2 = '\n' then '\n' :: replaceNN rest
      else c1 :: replaceNN (c2 :: rest) := rfl

theorem replaceNN_cons_ne (c : Char) (r : List Char) (hc : c ≠ '\n') :
    replaceNN (c :: r) = c :: replaceNN r := by
  cases r with
  | nil => rfl
  | cons r1 rest => rw [replaceNN_cons2, if_neg (by exact fun hh => hc hh.1)]

theorem startsNN_replaceNN (rest : List Char)
    (h : startsWithSeq ['\n', '\n'] rest = false) :
    startsWithSeq ['\n', '\n'] (replaceNN rest) = false := by
  match rest with
  | [] => rfl
  | [c] => simp [replaceNN_single, startsWithSeq, Bool.and_eq_false_iff]
  | c1 :: c2 :: rest' =>
    by_cases h1 : c1 = '\n'
    · subst h1
      have h2 : c2 ≠ '\n' := by
        intro hh
        subst hh
        simp [startsWithSeq] at h
      rw [replaceNN_cons2, if_neg (by exact fun hh => h2 hh.2),
        replaceNN_cons_ne c2 rest' h2]
      simp [startsWithSeq, Ne.symm h2]
    · rw [replaceNN_cons_ne c1 _ h1]
      simp [startsWithSeq, Ne.symm h1]

theorem containsSeq_cons_elim (pat : List Char) (c : Char) (r : List Char)
    (h : containsSeq pat (c :: r) = false) :
    startsWithSeq pat (c :: r) = false ∧ containsSeq pat r = false := by
  have h' : (startsWithSeq pat (c :: r) || containsSeq pat r) = false := h
  exact Bool.or_eq_false_iff.mp h'

theorem containsSeq_cons_intro (pat : List Char) (c : Char) (r : List Char)
    (h1 : startsWithSeq pat (c :: r) = false)
    (h2 : containsSeq pat r = false) :
    containsSeq pat (c :: r) = false := by
  have h' : (startsWithSeq pat (c :: r) || containsSeq pat r) = false :=
    Bool.or_eq_false_iff.mpr ⟨h1, h2⟩
  exact h'

theorem replaceNN_no_nl3_aux :
    ∀ (n : Nat) (s : List Char), s.length ≤ n →
      containsSeq nlRun4 s = false → containsSeq nlRun3 (replaceNN s) = false := by
  intro n
  induction n with
  | zero =>
    intro s hlen _
    have : s = [] := List.length_eq_zero.mp (Nat.le_zero.mp hlen)
    subst this
    decide
  | succ n ih =>
    intro s hlen h4
    match s with
    | [] => decide
    | [c] =>
      simp [replaceNN_single, nlRun3, containsSeq, startsWithSeq,
        Bool.and_eq_false_iff]
    | c1 :: c2 :: rest =>
      obtain ⟨hs4, h4'⟩ := containsSeq_cons_elim _ _ _ h4
      obtain ⟨-, h4''⟩ := containsSeq_cons_elim _ _ _ h4'
      have hlen' : (c2 :: rest).length ≤ n := by
        simpa using Nat.le_of_succ_le_succ hlen
      have hlenr : rest.length ≤ n := Nat.le_of_succ_le hlen'
      by_cases hb : c1 = '\n' ∧ c2 = '\n'
      · obtain ⟨hb1, hb2⟩ := hb
        subst hb1
        subst hb2
        have hs2 : startsWithSeq ['\n', '\n'] rest = false := by
          simpa [nlRun4, startsWithSeq] using hs4
        have hR2 : startsWithSeq ['\n', '\n'] (replaceNN rest) = false :=
          startsNN_replaceNN rest hs2
        have hC : containsSeq nlRun3 (replaceNN rest) = false := ih rest hlenr h4''
        rw [replaceNN_cons2, if_pos ⟨rfl, rfl⟩]
        refine containsSeq_cons_intro _ _ _ ?_ hC
        simpa [nlRun3, startsWithSeq] using hR2
      · rw [replaceNN_cons2, if_neg hb]
        have hC : containsSeq nlRun3 (replaceNN (c2 :: rest)) = false :=
          ih (c2 :: rest) hlen' h4'
        cases hcr : replaceNN (c2 :: rest) with
        | nil => simp [nlRun3, containsSeq, startsWithSeq]
        | cons d ds =>
          rw [hcr] at hC
          refine containsSeq_cons_intro _ _ _ ?_ hC
          by_cases hc1 : c1 = '\n'
          · subst hc1
            have hc2 : c2 ≠ '\n' := fun hh => hb ⟨rfl, hh⟩
            have hd : d = c2 := by
              rw [replaceNN_cons_ne c2 rest hc2] at hcr
              injection hcr with hh _
              exact hh.symm
            subst hd
            simp [nlRun3, startsWithSeq, Ne.symm hc2]
          · simp [nlRun3, startsWithSeq, Ne.symm hc1]

theorem replaceNN_no_nl3 (s : List Char) (h : containsSeq nlRun4 s = false) :
    containsSeq nlRun3 (replaceNN s) = false :=
  replaceNN_no_nl3_aux s.length s le_rfl h

theorem pyStrip_prefix_of_drop (s : List Char) :
    ∃ w, pyStrip s ++ w = s.dropWhile pyIsSpace := by
  refine ⟨((s.dropWhile pyIsSpace).reverse.takeWhile pyIsSpace).reverse, ?_⟩
  have h2 := List.takeWhile_append_dropWhile pyIsSpace (s.dropWhile pyIsSpace).reverse
  have h3 := congrArg List.reverse h2
  rw [List.reverse_append, List.reverse_reverse] at h3
  exact h3

theorem pyStrip_middle (s : List Char) : ∃ x y, x ++ pyStrip s ++ y = s := by
  obtain ⟨w, hw⟩ := pyStrip_prefix_of_drop s
  refine ⟨s.takeWhile pyIsSpace, w, ?_⟩
  rw [List.append_assoc, hw, List.takeWhile_append_dropWhile]

theorem dropWhile_dropWhile (p : Char → Bool) (l : List Char) :
    (l.dropWhile p).dropWhile p = l.dropWhile p := by
  induction l with
  | nil => rfl
  | cons c t ih =>
    by_cases hc : p c
    · simp [List.dropWhile_cons, hc, ih]
    · simp [List.dropWhile_cons, hc]

theorem dropWhile_head_false (p : Char → Bool) (l : List Char) :
    ∀ c t, l.dropWhile p = c :: t → p c = false := by
  induction l with
  | nil => intro c t h; simp at h
  | cons a l' ih =>
    intro c t h
    by_cases ha : p a
    · rw [List.dropWhile_cons, if_pos ha] at h
      exact ih c t h
    · rw [List.dropWhile_cons, if_neg ha] at h
      cases h
      simpa using ha

theorem pyStrip_idem (s : List Char) : pyStrip (pyStrip s) = pyStrip s := by
  have hless : (pyStrip s).dropWhile pyIsSpace = pyStrip s := by
    cases hu : pyStrip s with
    | nil => rfl
    | cons c t =>
      obtain ⟨w, hw⟩ := pyStrip_prefix_of_drop s
      rw [hu] at hw
      have hc : pyIsSpace c = false := by
        apply dropWhile_head_false pyIsSpace s c (t ++ w)
        rw [← hw]
        simp
      simp [List.dropWhile_cons, hc]
  show ((((pyStrip s).dropWhile pyIsSpace).reverse).dropWhile pyIsSpace).reverse
      = pyStrip s
  rw [hless]
  have hrev : (pyStrip s).reverse
      = ((s.dropWhile pyIsSpace).reverse).dropWhile pyIsSpace := by
    simp [pyStrip]
  rw [hrev, dropWhile_dropWhile]
  simp [pyStrip]

theorem dropWhile_suffix_decomp (p : Char → Bool) (l : List Char) :
    ∃ x, x ++ l.dropWhile p = l :=
  ⟨l.takeWhile p, List.takeWhile_append_dropWhile p l⟩

theorem matchMarker_suffix (s r : List Char) (h : matchMarker s = some r) :
    ∃ x, x ++ r = s := by
  match s with
  | [] => exact absurd h (by simp [matchMarker])
  | [c] => exact absurd h (by simp [matchMarker])
  | c1 :: c2 :: rest =>
    by_cases hstar : c1 = '*' ∧ c2 = '*'
    · have hm : matchMarker (c1 :: c2 :: rest)
          = (match rest.dropWhile Char.isDigit with
             | d1 :: rest2 =>
               if d1 = '.' ∧ rest.takeWhile Char.isDigit ≠ [] then
                 some (rest2.dropWhile pyIsSpace)
               else none
             | [] => none) := by
        simp only [matchMarker]
        rw [if_pos hstar]
      rcases hd : rest.dropWhile Char.isDigit with _ | ⟨d1, rest2⟩
      · rw [hm, hd] at h
        exact absurd h (by simp)
      · rw [hm, hd] at h
        have h' : (if d1 = '.' ∧ rest.takeWhile Char.isDigit ≠ [] then
            some (rest2.dropWhile pyIsSpace) else none) = some r := h
        by_cases hdot : d1 = '.' ∧ rest.takeWhile Char.isDigit ≠ []
        · rw [if_pos hdot] at h'
          have hr : r = rest2.dropWhile pyIsSpace := by
            injection h' with hh
            exact hh.symm
          obtain ⟨a, ha⟩ := dropWhile_suffix_decomp pyIsSpace rest2
          obtain ⟨b, hb⟩ := dropWhile_suffix_decomp Char.isDigit rest
          refine ⟨[c1, c2] ++ b ++ [d1] ++ a, ?_⟩
          subst hr
          have hbr : b ++ (d1 :: rest2) = rest := by rw [← hd]; exact hb
          calc ([c1, c2] ++ b ++ [d1] ++ a) ++ rest2.dropWhile pyIsSpace
              = [c1, c2] ++ (b ++ ([d1] ++ (a ++ rest2.dropWhile pyIsSpace))) := by
                simp [List.append_assoc]
            _ = [c1, c2] ++ (b ++ ([d1] ++ rest2)) := by rw [ha]
            _ = [c1, c2] ++ rest := by
                rw [show [d1] ++ rest2 = d1 :: rest2 from rfl, hbr]
            _ = c1 :: c2 :: rest := rfl
        · rw [if_neg hdot] at h'
          exact absurd h' (by simp)
    · have hm : matchMarker (c1 :: c2 :: rest) = none := by
        simp only [matchMarker]
        rw [if_neg hstar]
      rw [hm] at h
      exact absurd h (by simp)

theorem splitThemesFuel_decomp (fuel : Nat) :
    ∀ (s : List Char),
      (∀ seg segs, splitThemesFuel fuel s = seg :: segs → ∃ y, seg ++ y = s)
      ∧ (∀ seg, seg ∈ splitThemesFuel fuel s → ∃ x y, x ++ seg ++ y = s) := by
  induction fuel with
  | zero =>
    intro s
    constructor
    · intro seg segs h
      simp only [splitThemesFuel, List.cons.injEq] at h
      exact ⟨[], by simp [h.1]⟩
    · intro seg hmem
      simp only [splitThemesFuel, List.mem_singleton] at hmem
      exact ⟨[], [], by simp [hmem]⟩
  | succ n ih =>
    intro s
    match s with
    | [] =>
      constructor
      · intro seg segs h
        simp only [splitThemesFuel, List.cons.injEq] at h
        exact ⟨[], by simp [h.1]⟩
      · intro seg hmem
        simp only [splitThemesFuel, List.mem_singleton] at hmem
        exact ⟨[], [], by simp [hmem]⟩
    | c :: cs =>
      have hstep : splitThemesFuel (n + 1) (c :: cs)
          = (match matchMarker (c :: cs) with
             | some rest => [] :: splitThemesFuel n rest
             | none =>
               match splitThemesFuel n cs with
               | seg :: segs => (c :: seg) :: segs
               | [] => [[c]]) := rfl
      cases hm : matchMarker (c :: cs) with
      | some rest =>
        rw [hm] at hstep
        constructor
        · intro seg segs h
          rw [hstep] at h
          have hseg : seg = [] := ((List.cons.injEq _ _ _ _).mp h.symm).1
          exact ⟨c :: cs, by simp [hseg]⟩
        · intro seg hmem
          rw [hstep] at hmem
          rcases List.mem_cons.mp hmem with hseg | hseg
          · exact ⟨[], c :: cs, by simp [hseg]⟩
          · obtain ⟨x, y, hxy⟩ := (ih rest).2 seg hseg
            obtain ⟨w, hw⟩ := matchMarker_suffix _ _ hm
            exact ⟨w ++ x, y, by rw [← hw, ← hxy]; simp [List.append_assoc]⟩
      | none =>
        rw [hm] at hstep
        cases hs : splitThemesFuel n cs with
        | nil =>
          rw [hs] at hstep
          constructor
          · intro seg segs h
            rw [hstep] at h
            have hseg : seg = [c] := ((List.cons.injEq _ _ _ _).mp h.symm).1
            exact ⟨cs, by simp [hseg]⟩
          · intro seg hmem
            rw [hstep] at hmem
            have hseg : seg = [c] := List.mem_singleton.mp hmem
            exact ⟨[], cs, by simp [hseg]⟩
        | cons seg0 segs0 =>
          rw [hs] at hstep
          constructor
          · intro seg segs h
            rw [hstep] at h
            have hseg : seg = c :: seg0 := ((List.cons.injEq _ _ _ _).mp h.symm).1
            obtain ⟨y, hy⟩ := (ih cs).1 seg0 segs0 hs
            exact ⟨y, by rw [hseg]; simpa using congrArg (c :: ·) hy⟩
          · intro seg hmem
            rw [hstep] at hmem
            rcases List.mem_cons.mp hmem with hseg | hseg
            · obtain ⟨y, hy⟩ := (ih cs).1 seg0 segs0 hs
              exact ⟨[], y, by rw [hseg]; simpa using congrArg (c :: ·) hy⟩
            · have hseg' : seg ∈ splitThemesFuel n cs := by
                rw [hs]
                exact List.mem_cons_of_mem _ hseg
              obtain ⟨x, y, hxy⟩ := (ih cs).2 seg hseg'
              exact ⟨c :: x, y, by rw [← hxy]; simp⟩

theorem parseThemes_mem_decomp (content t : List Char)
    (ht : t ∈ parseThemes content) :
    ∃ seg, (∃ x y, x ++ seg ++ y = content) ∧ t = pyStrip (replaceNN seg) := by
  simp only [parseThemes] at ht
  obtain ⟨seg, hseg, hmap⟩ := List.mem_map.mp ht
  have hfil : seg ∈ postPopThemes (splitThemes (pyStrip content)) :=
    (List.mem_filter.mp hseg).1
  have hsplit : seg ∈ splitThemes (pyStrip content) := by
    cases hsp : splitThemes (pyStrip content) with
    | nil =>
      rw [hsp] at hfil
      simp [postPopThemes] at hfil
    | cons t0 rest' =>
      rw [hsp] at hfil
      have hpp : postPopThemes (t0 :: rest')
          = if pyStrip t0 = [] then rest' else t0 :: rest' := rfl
      rw [hpp] at hfil
      by_cases h0 : pyStrip t0 = []
      · rw [if_pos h0] at hfil
        exact List.mem_cons_of_mem _ hfil
      · rw [if_neg h0] at hfil
        exact hfil
  obtain ⟨x, y, hxy⟩ :=
    (splitThemesFuel_decomp ((pyStrip content).length + 1) (pyStrip content)).2
      seg hsplit
  obtain ⟨a, b, hab⟩ := pyStrip_middle content
  refine ⟨seg, ⟨a ++ x, y ++ b, ?_⟩, hmap.symm⟩
  rw [← hab, ← hxy]
  simp [List.append_assoc]

/-- C7 counterexample: the claim that every parsed theme segment is normalized
to single blank lines fails — a segment with six consecutive newlines still
contains three consecutive newlines (a run of two blank lines) after the
single `"\n\n" → "\n"` pass. -/
theorem c7_blank_lines_cex :
    ¬ (∀ (content : List Char), ∀ t ∈ parseThemes content,
        containsSeq nlRun3 t = false ∧ pyStrip t = t) := by
  intro h
  have := (h ("**1. A\n\n\n\n\n\nB".toList) ("A\n\n\nB".toList) (by decide)).1
  exact absurd this (by decide)

/-- C7 amended: theme parsing trims each parsed segment and applies one
left-to-right `"\n\n" → "\n"` pass; this guarantees the absence of runs of
more than one blank line only when the completion content has no run of four
or more consecutive newlines — longer runs are merely halved (six newlines
become three). -/
theorem c7_blank_lines_amended (content t : List Char)
    (h4 : containsSeq nlRun4 content = false) (ht : t ∈ parseThemes content) :
    containsSeq nlRun3 t = false ∧ pyStrip t = t := by
  obtain ⟨seg, ⟨x, y, hxy⟩, rfl⟩ := parseThemes_mem_decomp content t ht
  have h4seg : containsSeq nlRun4 seg = false := by
    apply containsSeq_middle_false nlRun4 seg x y
    rw [hxy]
    exact h4
  have h3 : containsSeq nlRun3 (replaceNN seg) = false := replaceNN_no_nl3 seg h4seg
  constructor
  · obtain ⟨a, b, hab⟩ := pyStrip_middle (replaceNN seg)
    apply containsSeq_middle_false nlRun3 _ a b
    rw [hab]
    exact h3
  · exact pyStrip_idem _

theorem c7_blank_lines_amended_witness :
    containsSeq nlRun3 ("Hello\nWorld".toList) = false
    ∧ pyStrip ("Hello\nWorld".toList) = "Hello\nWorld".toList :=
  c7_blank_lines_amended ("**1. Hello\n\nWorld".toList) ("Hello\nWorld".toList)
    (by decide) (by decide)
